import Mathlib

/-!
Shallow embedding of `src/internal/cursor-agent.ts` (the cursor-acp adapter):
the tool-event classifier, the event mapper `mapCursorEventToAcp`, the
per-line turn processing of `prompt`, stop-reason resolution, and the
session-registry verbs.  JavaScript runtime values flowing through the
adapter are modeled by `JVal`; `Option JVal` stands for a possibly-`undefined`
value (`none` = `undefined`).  JSON numbers are modeled as integers: the
program only inspects integral numeric fields (exit codes, line numbers,
match counts).  JS strings are modeled as Lean strings, with code units
identified with characters.
-/

/-- Model of a JavaScript value produced by `JSON.parse` (no `undefined`
inside: `JSON.parse` never yields it). -/
inductive JVal where
  | null : JVal
  | bool : Bool → JVal
  | num : Int → JVal
  | str : String → JVal
  | arr : List JVal → JVal
  | obj : List (String × JVal) → JVal

/-- Whether the value is JS `null`. -/
def JVal.isNull : JVal → Bool
  | .null => true
  | _ => false

/-- Whether the value is a JS string. -/
def JVal.isStr : JVal → Bool
  | .str _ => true
  | _ => false

/-- JS ToBoolean on a defined value (`NaN` is not representable here). -/
def truthy : JVal → Bool
  | .null => false
  | .bool b => b
  | .num n => n != 0
  | .str s => s != ""
  | .arr _ => true
  | .obj _ => true

/-- JS ToBoolean on a possibly-`undefined` value. -/
def otruthy : Option JVal → Bool
  | none => false
  | some v => truthy v

/-- JS strict equality `v === t` between a value and a string literal. -/
def JVal.strEq : JVal → String → Bool
  | .str s, t => s == t
  | _, _ => false

/-- JS strict equality on a possibly-`undefined` value against a string. -/
def ostrEq : Option JVal → String → Bool
  | some v, t => v.strEq t
  | none, _ => false

/-- JS property access `v.k`: `undefined` (`none`) unless `v` is an object
carrying the key.  (Access on `null` throws in JS; call sites guard it.) -/
def jget : JVal → String → Option JVal
  | .obj kvs, k => kvs.lookup k
  | _, _ => none

/-- JS optional chaining `o?.k`. -/
def obind (o : Option JVal) (k : String) : Option JVal :=
  match o with
  | none => none
  | some v => jget v k

/-- JS nullish coalescing `a ?? d` with a defined fallback. -/
def jqq (a : Option JVal) (d : JVal) : JVal :=
  match a with
  | none => d
  | some .null => d
  | some v => v

/-- JS nullish coalescing `a ?? b` with a possibly-`undefined` fallback. -/
def jcoal (a b : Option JVal) : Option JVal :=
  match a with
  | none => b
  | some .null => b
  | some v => some v

/-- JS `typeof x === "number" ? x : undefined` on a possibly-`undefined` value. -/
def jnum? : Option JVal → Option Int
  | some (.num n) => some n
  | _ => none

/-- JS `Object.keys`: own enumerable keys (array and string indices included). -/
def objectKeys : JVal → List String
  | .obj kvs => kvs.map Prod.fst
  | .arr xs => (List.range xs.length).map toString
  | .str s => (List.range s.data.length).map toString
  | _ => []

/-- Decimal parse of a candidate array index (the digit-only keys produced
by `Object.keys` on arrays and strings). -/
def strToNat? (s : String) : Option Nat :=
  if s.data.isEmpty then none
  else
    s.data.foldl
      (fun acc c => acc.bind fun n => if c.isDigit then some (n * 10 + (c.toNat - 48)) else none)
      (some 0)

/-- JS computed property access `v[k]` with a string key. -/
def jindex : JVal → String → Option JVal
  | .obj kvs, k => kvs.lookup k
  | .arr xs, k => (strToNat? k).bind fun i => xs[i]?
  | .str s, k => (strToNat? k).bind fun i => (s.data[i]?).map fun c => .str (String.mk [c])
  | _, _ => none

/-- JS numeric index access `v?.[0]`. -/
def jidx0 (v : JVal) : Option JVal :=
  jindex v "0"

mutual
/-- JS ToString of a defined value (template-literal / `String(x)` semantics). -/
def jsToString : JVal → String
  | .null => "null"
  | .bool b => if b then "true" else "false"
  | .num n => toString n
  | .str s => s
  | .arr xs => jsJoin "," xs
  | .obj _ => "[object Object]"

/-- JS `Array.prototype.join`: elements stringified, `null` rendered empty. -/
def jsJoin : String → List JVal → String
  | _, [] => ""
  | _, [x] => (match x with | .null => "" | v => jsToString v)
  | sep, x :: y :: xs =>
    (match x with | .null => "" | v => jsToString v) ++ sep ++ jsJoin sep (y :: xs)
end

/-- JS template interpolation of a possibly-`undefined` value. -/
def jshow : Option JVal → String
  | some v => jsToString v
  | none => "undefined"

/-- JS `String.prototype.startsWith` (code units as characters). -/
def jsStartsWith (s pre : String) : Bool :=
  pre.data.isPrefixOf s.data

/-- JS `String.prototype.slice(n)` for a nonnegative `n`. -/
def jsSlice (s : String) (n : Nat) : String :=
  ⟨s.data.drop n⟩

/-- JS `String.prototype.slice(0, n)` for a nonnegative `n`. -/
def jsTake (s : String) (n : Nat) : String :=
  ⟨s.data.take n⟩

/-- JS `String.prototype.length` (code units as characters). -/
def jsLength (s : String) : Nat :=
  s.data.length

/-- JS `String.prototype.trim`: whitespace stripped from both ends. -/
def jsTrim (s : String) : String :=
  ⟨((s.data.dropWhile Char.isWhitespace).reverse.dropWhile Char.isWhitespace).reverse⟩

/-! ## Outbound notification shapes (the `sessionUpdate` payloads the adapter emits) -/

/-- ACP tool kind chosen by `inferToolKind`. -/
inductive ToolKind where
  | read | edit | search | execute | other

/-- ACP tool-call status emitted by the mapper. -/
inductive ToolStatus where
  | pending | in_progress | completed | failed

/-- One `{ path, line? }` entry of a `locations` array. -/
structure ToolLocation where
  path : String
  line : Option Int

/-- One entry of a `content` array attached to a tool-call update:
either `{ type: "content", content: { type: "text", text } }` or
`{ type: "diff", path, oldText, newText }`. -/
inductive ToolContent where
  | text : JVal → ToolContent
  | diff : JVal → JVal → JVal → ToolContent

/-- The `update` payload of a session notification.  Optional fields model
properties the source attaches conditionally (or sets to `undefined`). -/
inductive SessionUpdate where
  | agent_message_chunk (text : String)
  | tool_call (toolCallId : JVal) (title : String) (kind : ToolKind) (status : ToolStatus)
      (rawInput : Option JVal) (locations : Option (List ToolLocation))
  | tool_call_update (toolCallId : JVal) (status : ToolStatus) (rawOutput : Option JVal)
      (locations : Option (List ToolLocation)) (content : Option (List ToolContent))
  | current_mode_update (currentModeId : String)
  | available_commands_update (availableCommands : List String)

/-- One outbound `sessionUpdate` notification. -/
structure SessionNotification where
  sessionId : String
  update : SessionUpdate

/-! ## Tool-event classifier (pure helpers of `cursor-agent.ts`) -/

/-- Embeds `buildToolTitle(kind, args)`. -/
def buildToolTitle (kind : String) (args : JVal) : String :=
  if kind == "readToolCall" then
    (if otruthy (jget args "path") then "Read " ++ jshow (jget args "path") else "Read")
  else if kind == "writeToolCall" then
    (if otruthy (jget args "path") then "Write " ++ jshow (jget args "path") else "Write")
  else if kind == "grepToolCall" then
    (if otruthy (jget args "pattern") && otruthy (jget args "path") then
      "Search " ++ jshow (jget args "path") ++ " for " ++ jshow (jget args "pattern")
    else if otruthy (jget args "pattern") then
      "Search for " ++ jshow (jget args "pattern")
    else "Search")
  else if kind == "globToolCall" then
    (if otruthy (jget args "pattern") then "Glob " ++ jshow (jget args "pattern") else "Glob")
  else if kind == "bashToolCall" || kind == "shellToolCall" then
    let cmd : Option JVal :=
      jcoal (jget args "command") (jcoal (jget args "cmd")
        (match jget args "commands" with
         | some (.arr xs) => some (.str (jsJoin " && " xs))
         | _ => none))
    (if otruthy cmd then "`" ++ jshow cmd ++ "`" else "Terminal")
  else kind

/-- Embeds `inferToolKind(kind)`. -/
def inferToolKind (kind : String) : ToolKind :=
  if kind == "readToolCall" then .read
  else if kind == "writeToolCall" then .edit
  else if kind == "grepToolCall" || kind == "globToolCall" then .search
  else if kind == "bashToolCall" || kind == "shellToolCall" then .execute
  else .other

/-- Embeds the per-item logic of the `paths` / `matches` / `files` loops of
`toLocationsFromArgs` / `toLocationsFromResult`.  The source orders the two
tests differently between loops, but a string item never has a string `.path`
property and vice versa, so one function models all three loops. -/
def locFromItem : JVal → Option ToolLocation
  | .str s => some ⟨s, none⟩
  | m =>
    match jget m "path" with
    | some (.str s) => some ⟨s, jnum? (jget m "line")⟩
    | _ => none

/-- Embeds `toLocationsFromArgs(args)`. -/
def toLocationsFromArgs (args : JVal) : Option (List ToolLocation) :=
  let locs :=
    (match jget args "path" with
     | some (.str s) => [⟨s, jnum? (jget args "line")⟩]
     | _ => []) ++
    (match jget args "paths" with
     | some (.arr ps) => ps.filterMap locFromItem
     | _ => [])
  if locs.isEmpty then none else some locs

/-- Embeds `toLocationsFromResult(result)` (argument may be `undefined`;
`if (!result) return undefined` is a falsiness test). -/
def toLocationsFromResult (result : Option JVal) : Option (List ToolLocation) :=
  if otruthy result then
    let r := result.getD .null
    let locs :=
      (match jget r "matches" with
       | some (.arr ms) => ms.filterMap locFromItem
       | _ => []) ++
      (match jget r "files" with
       | some (.arr fs) => fs.filterMap locFromItem
       | _ => []) ++
      (match jget r "path" with
       | some (.str s) => [⟨s, jnum? (jget r "line")⟩]
       | _ => [])
    if locs.isEmpty then none else some locs
  else none

/-- Embeds `summarizeSearchResult(toolKindKey, args, result)`.  Its `try`
block only performs optional-chained accesses on JSON values and cannot
throw, so the `catch` arm is dead. -/
def summarizeSearchResult (toolKindKey : Option String) (args : JVal) (result : Option JVal) :
    Option String :=
  if toolKindKey == some "grepToolCall" then
    let matchList : List JVal :=
      match obind result "matches" with
      | some (.arr ms) => ms
      | _ => []
    let count : Int :=
      match jnum? (obind result "count") with
      | some n => n
      | none => (matchList.length : Int)
    let pat := if otruthy (jget args "pattern") then jshow (jget args "pattern") else "pattern"
    some ("Found " ++ toString count ++ " match(es) for " ++ pat)
  else if toolKindKey == some "globToolCall" then
    let files : List JVal :=
      match obind result "files" with
      | some (.arr fs) => fs
      | _ => []
    let pat := if otruthy (jget args "pattern") then jshow (jget args "pattern") else "pattern"
    some ("Found " ++ toString files.length ++ " file(s) matching " ++ pat)
  else none

/-- Embeds `safeJson(obj)`: `JSON.parse(JSON.stringify(x))` is the identity
on JSON values; on `undefined`, `JSON.stringify` yields `undefined`, the
subsequent `JSON.parse` throws, and the `catch` returns `undefined`. -/
def safeJson (x : Option JVal) : Option JVal :=
  x

/-! ## Event mapper (`mapCursorEventToAcp`) -/

/-- Embeds the expression `evt?.message?.content?.[0]?.text ?? ""` used both
inside the mapper's assistant branch and in the line handler's tracking step. -/
def assistantTextOf (evt : JVal) : JVal :=
  jqq ((((jget evt "message").bind (fun v => jget v "content")).bind jidx0).bind
    (fun v => jget v "text")) (.str "")

/-- Embeds the `case "assistant"` branch of `mapCursorEventToAcp`.  A thrown
JS `TypeError` is modeled as `.error ()`: `text.startsWith` is called on a
truthy `text` that is not strictly equal to the string `lastAssistantText`,
and throws whenever that `text` is not a string. -/
def assistantBranch (sessionId : String) (evt : JVal) (lastAssistantText : String) :
    Except Unit (List SessionNotification) :=
  let text := assistantTextOf evt
  if truthy text && !(text.strEq lastAssistantText) then
    match text with
    | .str s =>
      let delta := if jsStartsWith s lastAssistantText then jsSlice s (jsLength lastAssistantText) else s
      .ok (if delta == "" then [] else [⟨sessionId, .agent_message_chunk delta⟩])
    | _ => .error ()
  else .ok []

/-- Embeds `tool?.result?.success ?? tool?.result?.error ?? tool?.result` of
the completed branch. -/
def toolResultOf (tool : Option JVal) : Option JVal :=
  jcoal (jcoal (obind (obind tool "result") "success") (obind (obind tool "result") "error"))
    (obind tool "result")

/-- Embeds the shell-output selection `result?.output ?? result?.stdout ?? ""`. -/
def shellOutput (result : Option JVal) : JVal :=
  jqq (jcoal (obind result "output") (obind result "stdout")) (.str "")

/-- Embeds `typeof result?.exitCode === "number" ? result.exitCode : undefined`. -/
def shellExit (result : Option JVal) : Option Int :=
  jnum? (obind result "exitCode")

/-- Embeds the `text` composed for a bash/shell completion before fencing:
an optional `Exit code: N` line followed by the stdout text, with
empty/whitespace-only stdout rendered as `(no output)`. -/
def shellContentText (result : Option JVal) : String :=
  let outText := jsToString (shellOutput result)
  let normalized := if jsLength (jsTrim outText) == 0 then "(no output)" else outText
  (match shellExit result with
   | some n => "Exit code: " ++ toString n ++ "\n"
   | none => "") ++ normalized

/-- Embeds the `content` attachment cascade of the completed branch. -/
def completedContent (toolKindKey : Option String) (args : JVal) (result : Option JVal) :
    Option (List ToolContent) :=
  if toolKindKey == some "readToolCall" && otruthy (jcoal (obind result "content") (jget args "content")) then
    some [.text (.str (jsTake (jsToString (jqq (jcoal (obind result "content") (jget args "content")) (.str ""))) 20000))]
  else if toolKindKey == some "writeToolCall" then
    let path := jget args "path"
    let newText := jqq (jcoal (obind result "newText") (jcoal (jget args "fileText") (jget args "newText"))) (.str "")
    let oldText := jqq (obind result "oldText") .null
    some (if otruthy path then [.diff (path.getD .null) oldText newText] else [.text newText])
  else if toolKindKey == some "bashToolCall" || toolKindKey == some "shellToolCall" then
    some [.text (.str ("```\n" ++ shellContentText result ++ "\n```"))]
  else if toolKindKey == some "grepToolCall" || toolKindKey == some "globToolCall" then
    match summarizeSearchResult toolKindKey args result with
    | some s => if s == "" then none else some [.text (.str s)]
    | none => none
  else none

/-- Embeds `evt.tool_call ? Object.keys(evt.tool_call)[0] : undefined`. -/
def toolKindKeyOf (evt : JVal) : Option String :=
  if otruthy (jget evt "tool_call") then (objectKeys ((jget evt "tool_call").getD .null)).head?
  else none

/-- Embeds `toolKindKey ? evt.tool_call[toolKindKey] : undefined` (note the
key itself is truthiness-tested, so an empty-string key yields `undefined`). -/
def toolOf (evt : JVal) : Option JVal :=
  match toolKindKeyOf evt with
  | some k => if k == "" then none else jindex ((jget evt "tool_call").getD .null) k
  | none => none

/-- Embeds the `case "tool_call"` branch of `mapCursorEventToAcp` (this
branch only performs optional-chained or guarded accesses and cannot throw). -/
def toolCallBranch (sessionId : String) (evt : JVal) : List SessionNotification :=
  let callId : JVal := jqq (jcoal (jget evt "call_id") (jget evt "tool_call_id")) (.str "")
  let started := ostrEq (jget evt "subtype") "started"
  let completed := ostrEq (jget evt "subtype") "completed"
  let toolKindKey : Option String := toolKindKeyOf evt
  let tool : Option JVal := toolOf evt
  let args : JVal := jqq (obind tool "args") (.obj [])
  if started then
    let keyOrOther := match toolKindKey with
      | some k => if k == "" then "Other" else k
      | none => "Other"
    [⟨sessionId, .tool_call callId (buildToolTitle keyOrOther args) (inferToolKind keyOrOther)
        .pending (safeJson (some args)) (toLocationsFromArgs args)⟩,
     ⟨sessionId, .tool_call_update callId .in_progress none none none⟩]
  else if completed then
    let result := toolResultOf tool
    let isError := otruthy (obind (obind tool "result") "error")
    let locs :=
      match toLocationsFromResult result with
      | some l => some l
      | none => toLocationsFromArgs args
    [⟨sessionId, .tool_call_update callId (if isError then .failed else .completed)
        (safeJson result) locs (completedContent toolKindKey args result)⟩]
  else []

/-- Embeds `mapCursorEventToAcp(sessionId, evt, lastAssistantText = "")`.
A thrown JS exception is modeled as `.error ()`: `switch (evt.type)` throws
a `TypeError` when `evt` is `null`, and the assistant branch can throw on a
truthy non-string text field. -/
def mapCursorEventToAcp (sessionId : String) (evt : JVal) (lastAssistantText : String := "") :
    Except Unit (List SessionNotification) :=
  if evt.isNull then .error ()
  else
    match jget evt "type" with
    | some (.str "user") => .ok []
    | some (.str "assistant") => assistantBranch sessionId evt lastAssistantText
    | some (.str "tool_call") => .ok (toolCallBranch sessionId evt)
    | _ => .ok []

/-! ## Turn runner: the `rl.on("line", ...)` handler and turn resolution -/

/-- Terminal stop-reason of a prompt turn. -/
inductive StopReason where
  | end_turn | cancelled | refusal

/-- Embeds the `if (evt.type === "result") ...` tracking of the line handler:
a result event overwrites the captured stop-reason according to its subtype. -/
def updateStopReason (evt : JVal) (stopReason : Option StopReason) : Option StopReason :=
  if ostrEq (jget evt "type") "result" then
    if ostrEq (jget evt "subtype") "success" then some .end_turn
    else if ostrEq (jget evt "subtype") "cancelled" then some .cancelled
    else if ostrEq (jget evt "subtype") "error" || ostrEq (jget evt "subtype") "failure"
        || ostrEq (jget evt "subtype") "refused" then some .refusal
    else stopReason
  else stopReason

/-- Embeds the line handler's `if (evt.type === "assistant") { ... if (text)
lastAssistantText = text }` tracking.  This step only runs after
`mapCursorEventToAcp` returned normally, which rules out a truthy non-string
text (the mapper already threw on it), so the non-string arm only ever sees
falsy values, for which JS performs no assignment. -/
def trackAssistantLast (evt : JVal) (lastAssistantText : String) : String :=
  if ostrEq (jget evt "type") "assistant" then
    match assistantTextOf evt with
    | .str s => if s == "" then lastAssistantText else s
    | _ => lastAssistantText
  else lastAssistantText

/-- Embeds `if (evt.session_id && !session.resumeId) session.resumeId = evt.session_id`. -/
def captureResume (evt : JVal) (resumeId : Option JVal) : Option JVal :=
  if otruthy (jget evt "session_id") && !(otruthy resumeId) then jget evt "session_id"
  else resumeId

/-- Mutable state threaded through the `rl.on("line")` handler during one
turn: notifications pushed so far, `lastAssistantText`, the captured
stop-reason, and the session's resume id. -/
structure TurnState where
  notes : List SessionNotification
  lastAssistantText : String
  stopReason : Option StopReason
  resumeId : Option JVal

/-- Embeds one execution of the line handler.  `none` models a line
`JSON.parse` rejected; a `.error` from the mapper models a thrown exception:
in both cases the `catch` swallows it and the rest of the callback is
skipped. -/
def processLine (sessionId : String) (st : TurnState) (line : Option JVal) : TurnState :=
  match line with
  | none => st
  | some evt =>
    match mapCursorEventToAcp sessionId evt st.lastAssistantText with
    | .error _ => st
    | .ok notes =>
      { notes := st.notes ++ notes
        lastAssistantText := trackAssistantLast evt st.lastAssistantText
        stopReason := updateStopReason evt st.stopReason
        resumeId := captureResume evt st.resumeId }

/-- Folds the line handler over the complete stdout line sequence of a turn. -/
def processLines (sessionId : String) (lines : List (Option JVal)) (st : TurnState) : TurnState :=
  lines.foldl (processLine sessionId) st

/-- Embeds the `finalize` closure of `prompt`: cancellation flag first, then
the captured stop-reason, then the exit-code fallback (`exitCode === 0` is a
strict comparison, so a `null` exit code falls to `refusal`). -/
def finalizeStopReason (cancelled : Bool) (stopReason : Option StopReason) (exitCode : Option Int) :
    StopReason :=
  if cancelled then .cancelled
  else
    match stopReason with
    | some r => r
    | none => if exitCode == some 0 then .end_turn else .refusal

/-! ## Session registry and agent facade -/

/-- One prompt-content chunk, as inspected by `concatPromptChunks`: a text
chunk, a resource chunk whose embedded resource carries inline `text`, a
resource link (contributing its `uri`), or any other chunk (skipped). -/
inductive PromptChunk where
  | text : String → PromptChunk
  | resourceText : String → PromptChunk
  | resourceLink : String → PromptChunk
  | other : PromptChunk

/-- Embeds `concatPromptChunks(chunks)`. -/
def concatPromptChunks (chunks : List PromptChunk) : String :=
  String.intercalate "\n\n" (chunks.filterMap fun c =>
    match c with
    | .text t => some t
    | .resourceText t => some t
    | .resourceLink uri => some uri
    | .other => none)

/-- Per-session state held in the `sessions` record.  `running` records
whether a live child-process handle is stored (process internals are an
external collaborator).  `modeId` is a string validated by `setSessionMode`. -/
structure SessionState where
  cwd : Option String
  cancelled : Bool
  resumeId : Option JVal
  modeId : String
  running : Bool

/-- The `sessions` record of the agent, keyed by session id. -/
abbrev AgentState := List (String × SessionState)

/-- Embeds the record read `this.sessions[id]`. -/
def lookupSession (st : AgentState) (id : String) : Option SessionState :=
  st.lookup id

/-- Embeds the record write `this.sessions[id] = s` (insert or overwrite). -/
def updateSession : AgentState → String → SessionState → AgentState
  | [], id, s => [(id, s)]
  | (k, v) :: rest, id, s =>
    if k == id then (k, s) :: rest else (k, v) :: updateSession rest id s

/-- Embeds `newSession` (the generated id is passed in; id generation is an
external collaborator).  The available-commands announcement is returned
alongside the new registry. -/
def newSession (st : AgentState) (id : String) (cwd : Option String) :
    AgentState × SessionNotification :=
  (updateSession st id
    { cwd := cwd, cancelled := false, resumeId := none, modeId := "default", running := false },
   ⟨id, .available_commands_update []⟩)

/-- External inputs of one prompt turn: the stdout lines (parsed, or `none`
for a non-JSON line), the process exit code (`null` modeled as `none`), and
whether a concurrent `cancel` set the session's cancellation flag while the
turn ran.  The stderr authentication-hint watcher is an independent side
channel and is not modeled. -/
structure TurnInput where
  lines : List (Option JVal)
  exitCode : Option Int
  cancelDuringTurn : Bool

/-- Embeds the spawn argument construction of `prompt` (lines 101-114):
fixed streaming flags, a resume flag when the session has a truthy resume
id, and the prompt text when non-empty. -/
def buildArgs (resumeId : Option JVal) (initialPrompt : String) : List JVal :=
  [.str "--print", .str "--output-format", .str "stream-json", .str "--stream-partial-output"]
    ++ (if otruthy resumeId then [.str "--resume", resumeId.getD .null] else [])
    ++ (if initialPrompt != "" && initialPrompt.length > 0 then [.str initialPrompt] else [])

/-- Result of a `prompt` call: the response (or thrown error), the registry
afterwards, the notifications pushed during the turn, and the arguments the
child process was spawned with. -/
structure PromptResult where
  response : Except String StopReason
  state : AgentState
  notes : List SessionNotification
  spawnArgs : List JVal

/-- Embeds the `prompt` verb as one sequential turn: session lookup, flag
reset, prompt construction (plan-mode directive first), spawn-argument
construction, line-by-line event processing, and resolution via `finalize`. -/
def promptVerb (st : AgentState) (sessionId : String) (chunks : List PromptChunk)
    (turn : TurnInput) : PromptResult :=
  match lookupSession st sessionId with
  | none => { response := .error "Session not found", state := st, notes := [], spawnArgs := [] }
  | some session =>
    let session := { session with cancelled := false }
    let initialPrompt :=
      (if session.modeId == "plan" then
        "[PLAN MODE] Do not edit files or run commands. Analyze only.\n\n"
      else "") ++ concatPromptChunks chunks
    let args := buildArgs session.resumeId initialPrompt
    let ts := processLines sessionId turn.lines
      { notes := [], lastAssistantText := "", stopReason := none, resumeId := session.resumeId }
    let cancelled := turn.cancelDuringTurn
    let stop := finalizeStopReason cancelled ts.stopReason turn.exitCode
    let session := { session with cancelled := cancelled, resumeId := ts.resumeId, running := false }
    { response := .ok stop, state := updateSession st sessionId session,
      notes := ts.notes, spawnArgs := args }

/-- Embeds the `cancel` verb.  The third component records whether a
termination signal was sent (a live handle was present). -/
def cancelVerb (st : AgentState) (sessionId : String) :
    Except String Unit × AgentState × Bool :=
  match lookupSession st sessionId with
  | none => (.error "Session not found", st, false)
  | some session =>
    let session := { session with cancelled := true }
    (.ok (), updateSession st sessionId session, session.running)

/-- Embeds the `setSessionMode` verb: session lookup, mode validation by
`switch`, mode update, and the synchronous `current_mode_update`
notification (which reads the just-updated `session.modeId`). -/
def setSessionModeVerb (st : AgentState) (sessionId : String) (modeId : String) :
    Except String Unit × AgentState × List SessionNotification :=
  match lookupSession st sessionId with
  | none => (.error "Session not found", st, [])
  | some session =>
    if modeId == "default" || modeId == "plan" then
      let session := { session with modeId := modeId }
      (.ok (), updateSession st sessionId session,
       [⟨sessionId, .current_mode_update session.modeId⟩])
    else (.error "Invalid Mode", st, [])

/-- Embeds the `setSessionModel` verb: it ignores its parameters (including
the session id) and returns immediately. -/
def setSessionModelVerb (st : AgentState) (_sessionId : String) :
    Except String Unit × AgentState :=
  (.ok (), st)

/-! ## Statement apparatus: concrete event builders and expected-output descriptions -/

/-- An assistant text event with cumulative text `t`, as emitted by the
external process. -/
def mkAssistantEvent (t : String) : JVal :=
  .obj [("type", .str "assistant"),
        ("message", .obj [("content", .arr [.obj [("text", .str t)]])])]

/-- A result event with the given subtype. -/
def mkResultEvent (sub : String) : JVal :=
  .obj [("type", .str "result"), ("subtype", .str sub)]

/-- A tool-call event with the given subtype, call id, tool-kind key and
tool payload. -/
def mkToolCallEvent (sub : String) (cid : JVal) (k : String) (tool : JVal) : JVal :=
  .obj [("type", .str "tool_call"), ("subtype", .str sub), ("call_id", cid),
        ("tool_call", .obj [(k, tool)])]

/-- Prefix order on strings (by their character lists). -/
def prefixRel (a b : String) : Prop :=
  a.data <+: b.data

/-- The texts the assistant branch emits for a run of cumulative texts `ts`
when the previously observed text is `last`: per event, a delta when its
truthy text differs from the text observed before it and the computed delta
is non-empty. -/
def chainDeltas (last : String) : List String → List String
  | [] => []
  | t :: ts =>
    (if t != "" && !(t == last) then
      (let delta := if jsStartsWith t last then jsSlice t (jsLength last) else t
       if delta == "" then [] else [delta])
     else []) ++ chainDeltas (if t == "" then last else t) ts

/-- The `lastAssistantText` value after tracking a run of cumulative texts. -/
def lastFold (last : String) : List String → String
  | [] => last
  | t :: ts => lastFold (if t == "" then last else t) ts

/-- Extracts the text of the single plain-text content block of a tool-call
update notification, if it has exactly that shape. -/
def contentTextOf : SessionNotification → Option String
  | ⟨_, .tool_call_update _ _ _ _ (some [.text (.str s)])⟩ => some s
  | _ => none

/-! ## Theorems -/

/-- C2: when the turn resolves after process exit, the final stop-reason
gives absolute priority to the session's cancelled flag; otherwise a
stop-reason captured from a result event (success → end_turn, cancelled →
cancelled, error/failure/refused → refusal) is returned; otherwise exit
code 0 yields end_turn and anything else yields refusal.  The last conjunct
ties the resolution into the `prompt` pipeline itself. -/
theorem c2_stop_reason_priority (sr cur : Option StopReason) (exit : Option Int) (r : StopReason) :
    finalizeStopReason true sr exit = .cancelled ∧
    finalizeStopReason false (some r) exit = r ∧
    finalizeStopReason false none (some 0) = .end_turn ∧
    (∀ e : Option Int, e ≠ some 0 → finalizeStopReason false none e = .refusal) ∧
    updateStopReason (mkResultEvent "success") cur = some .end_turn ∧
    updateStopReason (mkResultEvent "cancelled") cur = some .cancelled ∧
    updateStopReason (mkResultEvent "error") cur = some .refusal ∧
    updateStopReason (mkResultEvent "failure") cur = some .refusal ∧
    updateStopReason (mkResultEvent "refused") cur = some .refusal ∧
    (∀ (st : AgentState) (sid : String) (s : SessionState) (chunks : List PromptChunk)
        (turn : TurnInput), lookupSession st sid = some s →
      (promptVerb st sid chunks turn).response =
        .ok (finalizeStopReason turn.cancelDuringTurn
          (processLines sid turn.lines ⟨[], "", none, s.resumeId⟩).stopReason turn.exitCode)) := by
  refine ⟨rfl, rfl, rfl, ?_, rfl, rfl, rfl, rfl, rfl, ?_⟩
  · intro e he
    simp only [finalizeStopReason]
    have : (e == some 0) = false := by
      simp [beq_iff_eq]
      exact he
    simp [this]
  · intro st sid s chunks turn hs
    simp [promptVerb, hs]

/-- C2 witness: the priority theorem applied at concrete inputs, with the
prompt-pipeline conjunct instantiated on a one-session registry and a turn
carrying one failure result event and exit code 0. -/
theorem c2_stop_reason_priority_witness :
    (promptVerb [("a", ⟨none, false, none, "default", false⟩)] "a" []
        ⟨[some (mkResultEvent "failure")], some 0, false⟩).response = .ok .refusal := by
  have h := (c2_stop_reason_priority none none none .end_turn).2.2.2.2.2.2.2.2.2
    [("a", ⟨none, false, none, "default", false⟩)] "a" ⟨none, false, none, "default", false⟩ []
    ⟨[some (mkResultEvent "failure")], some 0, false⟩ rfl
  exact h.trans rfl

/-- C3: every tool_call event with subtype `started` maps to exactly two
notifications, in order: a `tool_call` notification with status pending
(carrying the classified title, kind, raw input echo, and argument-derived
locations), then a `tool_call_update` notification with status in_progress,
both carrying the same tool-call identifier. -/
theorem c3_started_pending_then_in_progress (sid last : String) (evt : JVal)
    (h1 : jget evt "type" = some (.str "tool_call"))
    (h2 : jget evt "subtype" = some (.str "started")) :
    ∃ callId rawInput locs,
      mapCursorEventToAcp sid evt last = .ok
        [⟨sid, .tool_call callId
            (buildToolTitle (match toolKindKeyOf evt with
              | some k => if k == "" then "Other" else k
              | none => "Other") (jqq (obind (toolOf evt) "args") (.obj [])))
            (inferToolKind (match toolKindKeyOf evt with
              | some k => if k == "" then "Other" else k
              | none => "Other")) .pending rawInput locs⟩,
         ⟨sid, .tool_call_update callId .in_progress none none none⟩] := by
  cases evt with
  | obj kvs =>
    have hb : mapCursorEventToAcp sid (.obj kvs) last = .ok (toolCallBranch sid (.obj kvs)) := by
      simp [mapCursorEventToAcp, h1, JVal.isNull]
    have hbr : toolCallBranch sid (.obj kvs) =
        [⟨sid, .tool_call
            (jqq (jcoal (jget (.obj kvs) "call_id") (jget (.obj kvs) "tool_call_id")) (.str ""))
            (buildToolTitle (match toolKindKeyOf (.obj kvs) with
              | some k => if k == "" then "Other" else k
              | none => "Other") (jqq (obind (toolOf (.obj kvs)) "args") (.obj [])))
            (inferToolKind (match toolKindKeyOf (.obj kvs) with
              | some k => if k == "" then "Other" else k
              | none => "Other")) .pending
            (safeJson (some (jqq (obind (toolOf (.obj kvs)) "args") (.obj []))))
            (toLocationsFromArgs (jqq (obind (toolOf (.obj kvs)) "args") (.obj [])))⟩,
         ⟨sid, .tool_call_update
            (jqq (jcoal (jget (.obj kvs) "call_id") (jget (.obj kvs) "tool_call_id")) (.str ""))
            .in_progress none none none⟩] := by
      simp [toolCallBranch, h2, ostrEq, JVal.strEq]
    exact ⟨_, _, _, hb.trans (by rw [hbr])⟩
  | null => simp [jget] at h1
  | bool b => simp [jget] at h1
  | num n => simp [jget] at h1
  | str s => simp [jget] at h1
  | arr xs => simp [jget] at h1

/-- C3 witness: the started-event theorem applied to a concrete bash
tool-call event. -/
theorem c3_started_pending_then_in_progress_witness :
    ∃ callId rawInput locs,
      mapCursorEventToAcp "s" (mkToolCallEvent "started" (.str "c1") "bashToolCall"
          (.obj [("args", .obj [("command", .str "ls")])])) "" = .ok
        [⟨"s", .tool_call callId
            (buildToolTitle (match toolKindKeyOf (mkToolCallEvent "started" (.str "c1")
                "bashToolCall" (.obj [("args", .obj [("command", .str "ls")])])) with
              | some k => if k == "" then "Other" else k
              | none => "Other")
              (jqq (obind (toolOf (mkToolCallEvent "started" (.str "c1") "bashToolCall"
                (.obj [("args", .obj [("command", .str "ls")])]))) "args") (.obj [])))
            (inferToolKind (match toolKindKeyOf (mkToolCallEvent "started" (.str "c1")
                "bashToolCall" (.obj [("args", .obj [("command", .str "ls")])])) with
              | some k => if k == "" then "Other" else k
              | none => "Other")) .pending rawInput locs⟩,
         ⟨"s", .tool_call_update callId .in_progress none none none⟩] :=
  c3_started_pending_then_in_progress "s" "" _ rfl rfl

/-- C10: a tool_call event whose subtype fails both strict comparisons
against "started" and "completed" (including a missing subtype) maps to
zero notifications. -/
theorem c10_tool_call_other_subtype_silent (sid last : String) (evt : JVal)
    (h1 : jget evt "type" = some (.str "tool_call"))
    (h2 : ostrEq (jget evt "subtype") "started" = false)
    (h3 : ostrEq (jget evt "subtype") "completed" = false) :
    mapCursorEventToAcp sid evt last = .ok [] := by
  cases evt with
  | obj kvs =>
    have hb : mapCursorEventToAcp sid (.obj kvs) last = .ok (toolCallBranch sid (.obj kvs)) := by
      simp [mapCursorEventToAcp, h1, JVal.isNull]
    rw [hb]
    simp [toolCallBranch, h2, h3]
  | null => simp [jget] at h1
  | bool b => simp [jget] at h1
  | num n => simp [jget] at h1
  | str s => simp [jget] at h1
  | arr xs => simp [jget] at h1

/-- C10 witness: a tool_call event with subtype "updated" (and one with no
subtype at all) yields no notifications. -/
theorem c10_tool_call_other_subtype_silent_witness :
    mapCursorEventToAcp "s" (.obj [("type", .str "tool_call"), ("subtype", .str "updated")]) ""
        = .ok [] ∧
    mapCursorEventToAcp "s" (.obj [("type", .str "tool_call")]) "" = .ok [] :=
  ⟨c10_tool_call_other_subtype_silent "s" "" _ rfl rfl rfl,
   c10_tool_call_other_subtype_silent "s" "" _ rfl rfl rfl⟩

/-- C4 counterexample: a completed tool-call event whose result carries an
`error` field with value `null` — the field is present, yet the emitted
update has status completed, because the source tests `!!tool?.result?.error`
(truthiness), not presence. -/
theorem c4_error_presence_counterexample :
    mapCursorEventToAcp "s" (mkToolCallEvent "completed" (.str "c") "otherTool"
        (.obj [("result", .obj [("error", .null)])])) ""
      = .ok [⟨"s", .tool_call_update (.str "c") .completed (some (.obj [("error", .null)]))
          none none⟩] := rfl

/-- C4 amended: every completed tool-call event maps to exactly one
`tool_call_update` notification, whose status is failed when the result's
`error` field holds a truthy value and completed otherwise (an absent,
null, or otherwise falsy `error` yields completed). -/
theorem c4_completed_single_update_status (sid last : String) (evt : JVal)
    (h1 : jget evt "type" = some (.str "tool_call"))
    (h2 : jget evt "subtype" = some (.str "completed")) :
    ∃ callId rawOutput locs content,
      mapCursorEventToAcp sid evt last = .ok
        [⟨sid, .tool_call_update callId
            (if otruthy (obind (obind (toolOf evt) "result") "error") then .failed else .completed)
            rawOutput locs content⟩] := by
  cases evt with
  | obj kvs =>
    have hb : mapCursorEventToAcp sid (.obj kvs) last = .ok (toolCallBranch sid (.obj kvs)) := by
      simp [mapCursorEventToAcp, h1, JVal.isNull]
    have hbr : toolCallBranch sid (.obj kvs) =
        [⟨sid, .tool_call_update
            (jqq (jcoal (jget (.obj kvs) "call_id") (jget (.obj kvs) "tool_call_id")) (.str ""))
            (if otruthy (obind (obind (toolOf (.obj kvs)) "result") "error") then .failed
             else .completed)
            (safeJson (toolResultOf (toolOf (.obj kvs))))
            (match toLocationsFromResult (toolResultOf (toolOf (.obj kvs))) with
             | some l => some l
             | none => toLocationsFromArgs (jqq (obind (toolOf (.obj kvs)) "args") (.obj [])))
            (completedContent (toolKindKeyOf (.obj kvs))
              (jqq (obind (toolOf (.obj kvs)) "args") (.obj []))
              (toolResultOf (toolOf (.obj kvs))))⟩] := by
      simp [toolCallBranch, h2, ostrEq, JVal.strEq]
    exact ⟨_, _, _, _, hb.trans (by rw [hbr])⟩
  | null => simp [jget] at h1
  | bool b => simp [jget] at h1
  | num n => simp [jget] at h1
  | str s => simp [jget] at h1
  | arr xs => simp [jget] at h1

/-- C4 witness: the amended theorem applied to a concrete completed event
with a truthy error value. -/
theorem c4_completed_single_update_status_witness :
    ∃ callId rawOutput locs content,
      mapCursorEventToAcp "s" (mkToolCallEvent "completed" (.str "c") "otherTool"
          (.obj [("result", .obj [("error", .str "boom")])])) "" = .ok
        [⟨"s", .tool_call_update callId
            (if otruthy (obind (obind (toolOf (mkToolCallEvent "completed" (.str "c") "otherTool"
                (.obj [("result", .obj [("error", .str "boom")])]))) "result") "error")
             then .failed else .completed)
            rawOutput locs content⟩] :=
  c4_completed_single_update_status "s" "" _ rfl rfl

/-- C5 counterexample: `setSessionModel` is a session verb taking a session
id, yet called with an id absent from an empty registry it succeeds (no
"session not found" failure) — it never consults the registry. -/
theorem c5_unknown_session_counterexample :
    lookupSession ([] : AgentState) "missing" = none ∧
    setSessionModelVerb ([] : AgentState) "missing" = (.ok (), ([] : AgentState)) :=
  ⟨rfl, rfl⟩

/-- C5 amended: `prompt`, `cancel` and `setSessionMode` called with an
unregistered session id fail with "Session not found" and leave the
registry unchanged (and push no notifications); `setSessionModel` ignores
the session id entirely and succeeds as a no-op. -/
theorem c5_unknown_session_fails (st : AgentState) (sid m : String)
    (chunks : List PromptChunk) (turn : TurnInput)
    (h : lookupSession st sid = none) :
    promptVerb st sid chunks turn =
      { response := .error "Session not found", state := st, notes := [], spawnArgs := [] } ∧
    cancelVerb st sid = (.error "Session not found", st, false) ∧
    setSessionModeVerb st sid m = (.error "Session not found", st, []) ∧
    setSessionModelVerb st sid = (.ok (), st) := by
  refine ⟨?_, ?_, ?_, rfl⟩
  · simp [promptVerb, h]
  · simp [cancelVerb, h]
  · simp [setSessionModeVerb, h]

/-- C5 witness: the amended theorem applied to an empty registry. -/
theorem c5_unknown_session_fails_witness :
    promptVerb ([] : AgentState) "x" [] ⟨[], none, false⟩ =
      { response := .error "Session not found", state := [], notes := [], spawnArgs := [] } ∧
    cancelVerb ([] : AgentState) "x" = (.error "Session not found", [], false) ∧
    setSessionModeVerb ([] : AgentState) "x" "plan" = (.error "Session not found", [], []) ∧
    setSessionModelVerb ([] : AgentState) "x" = (.ok (), []) :=
  c5_unknown_session_fails [] "x" "plan" [] ⟨[], none, false⟩ rfl

/-- C7: on a registered session, `setSessionMode` with a mode outside
{default, plan} fails with "Invalid Mode" and leaves the registry (hence
the stored mode) unchanged, while mode "default" or "plan" succeeds,
stores that mode, and pushes a `current_mode_update` notification carrying
the new mode. -/
theorem c7_set_session_mode (st : AgentState) (sid m : String) (s : SessionState)
    (hs : lookupSession st sid = some s) :
    (m ≠ "default" → m ≠ "plan" →
      setSessionModeVerb st sid m = (.error "Invalid Mode", st, [])) ∧
    (m = "default" ∨ m = "plan" →
      setSessionModeVerb st sid m =
        (.ok (), updateSession st sid { s with modeId := m },
         [⟨sid, .current_mode_update m⟩])) := by
  constructor
  · intro h1 h2
    simp [setSessionModeVerb, hs, h1, h2]
  · rintro (rfl | rfl) <;> simp [setSessionModeVerb, hs]

/-- C7 witness: the mode-verb theorem applied to a one-session registry,
for an invalid mode and for mode "plan". -/
theorem c7_set_session_mode_witness :
    setSessionModeVerb [("a", ⟨none, false, none, "default", false⟩)] "a" "turbo" =
      (.error "Invalid Mode", [("a", ⟨none, false, none, "default", false⟩)], []) ∧
    setSessionModeVerb [("a", ⟨none, false, none, "default", false⟩)] "a" "plan" =
      (.ok (), [("a", ⟨none, false, none, "plan", false⟩)],
       [⟨"a", .current_mode_update "plan"⟩]) :=
  ⟨(c7_set_session_mode [("a", ⟨none, false, none, "default", false⟩)] "a" "turbo"
      ⟨none, false, none, "default", false⟩ rfl).1 (by decide) (by decide),
   (c7_set_session_mode [("a", ⟨none, false, none, "default", false⟩)] "a" "plan"
      ⟨none, false, none, "default", false⟩ rfl).2 (Or.inr rfl)⟩

/-- Evaluation of the mapper on a completed bash/shell tool-call event:
one update whose content wraps `shellContentText` in the code fence. -/
theorem mapShellCompleted (sid last : String) (cid tool : JVal) (k : String)
    (hk : k = "bashToolCall" ∨ k = "shellToolCall") :
    mapCursorEventToAcp sid (mkToolCallEvent "completed" cid k tool) last = .ok
      [⟨sid, .tool_call_update (jqq (jcoal (some cid) none) (.str ""))
          (if otruthy (obind (obind (some tool) "result") "error") then ToolStatus.failed
           else ToolStatus.completed)
          (safeJson (toolResultOf (some tool)))
          (match toLocationsFromResult (toolResultOf (some tool)) with
           | some l => some l
           | none => toLocationsFromArgs (jqq (obind (some tool) "args") (.obj [])))
          (some [.text (.str ("```\n" ++ shellContentText (toolResultOf (some tool))
              ++ "\n```"))])⟩] := by
  rcases hk with rfl | rfl <;> rfl

/-- C8: for a bash/shell tool-call completion, when the selected output
stringifies to an empty-or-whitespace-only text and the result carries no
numeric exit code, the emitted content block text is exactly `(no output)`
inside the code fence with no "Exit code:" line; when a numeric exit code
`n` is present, the fenced text starts with an `Exit code: n` line. -/
theorem c8_shell_no_output_and_exit_code (sid last : String) (cid tool : JVal) (k : String)
    (hk : k = "bashToolCall" ∨ k = "shellToolCall") :
    (jsTrim (jsToString (shellOutput (toolResultOf (some tool)))) = "" →
      shellExit (toolResultOf (some tool)) = none →
      ∃ callId status rawOutput locs,
        mapCursorEventToAcp sid (mkToolCallEvent "completed" cid k tool) last = .ok
          [⟨sid, .tool_call_update callId status rawOutput locs
              (some [.text (.str "```\n(no output)\n```")])⟩]) ∧
    (∀ n : Int, shellExit (toolResultOf (some tool)) = some n →
      ∃ callId status rawOutput locs normalized,
        mapCursorEventToAcp sid (mkToolCallEvent "completed" cid k tool) last = .ok
          [⟨sid, .tool_call_update callId status rawOutput locs
              (some [.text (.str ("```\n" ++ ("Exit code: " ++ toString n ++ "\n" ++ normalized)
                  ++ "\n```"))])⟩]) := by
  have hmap := mapShellCompleted sid last cid tool k hk
  constructor
  · intro h1 h2
    have hct : shellContentText (toolResultOf (some tool)) = "(no output)" := by
      simp only [shellContentText]
      rw [h2, h1]
      rfl
    rw [hct] at hmap
    exact ⟨_, _, _, _, hmap⟩
  · intro n hn
    have hct : shellContentText (toolResultOf (some tool)) =
        "Exit code: " ++ toString n ++ "\n" ++
          (if jsLength (jsTrim (jsToString (shellOutput (toolResultOf (some tool))))) == 0
           then "(no output)" else jsToString (shellOutput (toolResultOf (some tool)))) := by
      simp only [shellContentText]
      rw [hn]
    rw [hct] at hmap
    exact ⟨_, _, _, _, _, hmap⟩

/-- C8 witness: the rendering theorem applied to a concrete shell completion
with whitespace-only output and no exit code, and to one with exit code 3. -/
theorem c8_shell_no_output_and_exit_code_witness :
    (∃ callId status rawOutput locs,
      mapCursorEventToAcp "s" (mkToolCallEvent "completed" (.str "c") "shellToolCall"
          (.obj [("result", .obj [("output", .str "  ")])])) "" = .ok
        [⟨"s", .tool_call_update callId status rawOutput locs
            (some [.text (.str "```\n(no output)\n```")])⟩]) ∧
    (∃ callId status rawOutput locs normalized,
      mapCursorEventToAcp "s" (mkToolCallEvent "completed" (.str "c") "bashToolCall"
          (.obj [("result", .obj [("stdout", .str "hi"), ("exitCode", .num 3)])])) "" = .ok
        [⟨"s", .tool_call_update callId status rawOutput locs
            (some [.text (.str ("```\n" ++ ("Exit code: " ++ toString (3 : Int) ++ "\n"
                ++ normalized) ++ "\n```"))])⟩]) :=
  ⟨(c8_shell_no_output_and_exit_code "s" "" (.str "c")
      (.obj [("result", .obj [("output", .str "  ")])]) "shellToolCall" (Or.inr rfl)).1 rfl rfl,
   (c8_shell_no_output_and_exit_code "s" "" (.str "c")
      (.obj [("result", .obj [("stdout", .str "hi"), ("exitCode", .num 3)])]) "bashToolCall"
      (Or.inl rfl)).2 3 rfl⟩

/-- A line whose event maps successfully leaves an already-set truthy resume
id untouched (`!session.resumeId` is false on a truthy value). -/
theorem processLine_keeps_resume (sid : String) (st : TurnState) (line : Option JVal) (v : JVal)
    (hv : st.resumeId = some v) (ht : truthy v = true) :
    (processLine sid st line).resumeId = some v := by
  cases line with
  | none => simpa [processLine] using hv
  | some evt =>
    simp only [processLine]
    cases hmap : mapCursorEventToAcp sid evt st.lastAssistantText with
    | error e => simpa using hv
    | ok notes => simp [captureResume, hv, otruthy, ht]

/-- Over a whole turn, an already-set truthy resume id is never overwritten. -/
theorem processLines_keeps_resume (sid : String) (lines : List (Option JVal)) (st : TurnState)
    (v : JVal) (hv : st.resumeId = some v) (ht : truthy v = true) :
    (processLines sid lines st).resumeId = some v := by
  induction lines generalizing st with
  | nil => simpa [processLines] using hv
  | cons line rest ih =>
    have h1 := processLine_keeps_resume sid st line v hv ht
    simpa [processLines] using ih (processLine sid st line) h1

/-- C6: (1) a successfully processed event carrying a truthy `session_id`
sets the session's resume id when none is set yet; (2) once set (the
captured value is necessarily truthy), no later line of any turn overwrites
it; (3) a prompt turn on a session holding a truthy resume id spawns the
external process with `--resume <id>` among its arguments. -/
theorem c6_resume_handle_lifecycle :
    (∀ (sid : String) (st : TurnState) (evt : JVal) (notes : List SessionNotification),
      st.resumeId = none →
      mapCursorEventToAcp sid evt st.lastAssistantText = .ok notes →
      otruthy (jget evt "session_id") = true →
      (processLine sid st (some evt)).resumeId = jget evt "session_id") ∧
    (∀ (sid : String) (lines : List (Option JVal)) (st : TurnState) (v : JVal),
      st.resumeId = some v → truthy v = true →
      (processLines sid lines st).resumeId = some v) ∧
    (∀ (st : AgentState) (sid : String) (s : SessionState) (chunks : List PromptChunk)
        (turn : TurnInput) (r : JVal),
      lookupSession st sid = some s → s.resumeId = some r → truthy r = true →
      [JVal.str "--resume", r] <:+: (promptVerb st sid chunks turn).spawnArgs) := by
  refine ⟨?_, ?_, ?_⟩
  · intro sid st evt notes hnone hok htr
    have hu : otruthy (none : Option JVal) = false := rfl
    simp [processLine, hok, captureResume, hnone, htr, hu]
  · intro sid lines st v hv ht
    exact processLines_keeps_resume sid lines st v hv ht
  · intro st sid s chunks turn r hlook hr ht
    have hargs : (promptVerb st sid chunks turn).spawnArgs =
        buildArgs s.resumeId
          ((if s.modeId == "plan" then
            "[PLAN MODE] Do not edit files or run commands. Analyze only.\n\n"
          else "") ++ concatPromptChunks chunks) := by
      simp [promptVerb, hlook]
    rw [hargs, hr]
    simp only [buildArgs, otruthy, ht, if_true, Option.getD_some]
    exact List.infix_append _ _ _

/-- C6 witness: capture from a concrete system event carrying a session_id,
preservation across a later line carrying a different session_id, and the
`--resume` spawn argument on a subsequent turn. -/
theorem c6_resume_handle_lifecycle_witness :
    (processLine "s" ⟨[], "", none, none⟩
        (some (.obj [("type", .str "system"), ("session_id", .str "abc")]))).resumeId
      = some (.str "abc") ∧
    (processLines "s" [some (.obj [("session_id", .str "xyz")])]
        ⟨[], "", none, some (.str "abc")⟩).resumeId = some (.str "abc") ∧
    [JVal.str "--resume", .str "abc"] <:+:
      (promptVerb [("a", ⟨none, false, some (.str "abc"), "default", false⟩)] "a" []
        ⟨[], some 0, false⟩).spawnArgs :=
  ⟨(c6_resume_handle_lifecycle.1 "s" ⟨[], "", none, none⟩
      (.obj [("type", .str "system"), ("session_id", .str "abc")]) [] rfl rfl rfl).trans rfl,
   c6_resume_handle_lifecycle.2.1 "s" [some (.obj [("session_id", .str "xyz")])]
     ⟨[], "", none, some (.str "abc")⟩ (.str "abc") rfl rfl,
   c6_resume_handle_lifecycle.2.2 [("a", ⟨none, false, some (.str "abc"), "default", false⟩)]
     "a" ⟨none, false, some (.str "abc"), "default", false⟩ [] ⟨[], some 0, false⟩
     (.str "abc") rfl rfl rfl⟩

/-- C9 counterexample: an assistant event object whose text field is the
number 5 (truthy, not a string) makes `mapCursorEventToAcp` throw a
`TypeError` (`text.startsWith` is not a function), modeled as `.error ()` —
the mapper is not total on event objects with malformed fields. -/
theorem c9_mapper_throws_counterexample :
    mapCursorEventToAcp "s" (.obj [("type", .str "assistant"),
        ("message", .obj [("content", .arr [.obj [("text", .num 5)]])])]) "" = .error () := rfl

/-- C9 amended: the mapper throws exactly on `null` events and on assistant
events whose extracted text is truthy but not a string; every other event
value (objects included) maps without throwing.  The line handler catches
both parse failures and mapper throws, leaving the turn state unchanged, so
stream processing never aborts and such lines yield zero notifications. -/
theorem c9_mapper_totality_boundary (sid last : String) :
    (∀ evt : JVal, mapCursorEventToAcp sid evt last = .error () ↔
      (evt.isNull = true ∨
        (jget evt "type" = some (.str "assistant") ∧ truthy (assistantTextOf evt) = true ∧
          (assistantTextOf evt).isStr = false))) ∧
    (∀ st : TurnState, processLine sid st none = st) ∧
    (∀ (st : TurnState) (evt : JVal),
      mapCursorEventToAcp sid evt st.lastAssistantText = .error () →
      processLine sid st (some evt) = st) := by
  refine ⟨?_, fun st => rfl, ?_⟩
  · intro evt
    cases evt with
    | null => simp [mapCursorEventToAcp, JVal.isNull]
    | bool b => simp [mapCursorEventToAcp, JVal.isNull, jget]
    | num n => simp [mapCursorEventToAcp, JVal.isNull, jget]
    | str s => simp [mapCursorEventToAcp, JVal.isNull, jget]
    | arr xs => simp [mapCursorEventToAcp, JVal.isNull, jget]
    | obj kvs =>
      simp only [mapCursorEventToAcp, JVal.isNull, Bool.false_eq_true, if_false, false_or]
      split
      next heq => simp [heq]
      next heq =>
        simp only [heq, Option.some.injEq, JVal.str.injEq, true_and]
        rcases htext : assistantTextOf (.obj kvs) with _ | b | n | t | xs | fs
        · simp [assistantBranch, htext, truthy]
        · cases b <;>
            simp [assistantBranch, htext, truthy, JVal.strEq, JVal.isStr]
        · simp [assistantBranch, htext, truthy, JVal.strEq, JVal.isStr]
        · simp only [assistantBranch, htext, JVal.isStr]
          constructor
          · intro h
            exfalso
            by_cases hc : (truthy (JVal.str t) && !(JVal.str t).strEq last) = true
            · rw [if_pos hc] at h
              by_cases hd : ((if jsStartsWith t last then jsSlice t (jsLength last) else t) == "") = true
              · rw [if_pos hd] at h
                exact Except.noConfusion h
              · rw [if_neg hd] at h
                exact Except.noConfusion h
            · rw [if_neg hc] at h
              exact Except.noConfusion h
          · intro h
            exact absurd h.2 (by simp)
        · simp [assistantBranch, htext, truthy, JVal.strEq, JVal.isStr]
        · simp [assistantBranch, htext, truthy, JVal.strEq, JVal.isStr]
      next heq => simp [heq]
      next hne1 hne2 hne3 =>
        constructor
        · intro h
          exact Except.noConfusion h
        · intro h
          exact (hne2 h.1).elim
  · intro st evt h
    simp [processLine, h]

/-- C9 witness: the boundary theorem's error cases evaluated on the null
event and a resilience check that the throwing assistant event leaves the
turn state unchanged. -/
theorem c9_mapper_totality_boundary_witness :
    (mapCursorEventToAcp "s" JVal.null "" = .error () ↔
      (JVal.null.isNull = true ∨
        (jget JVal.null "type" = some (.str "assistant") ∧
          truthy (assistantTextOf JVal.null) = true ∧
          (assistantTextOf JVal.null).isStr = false))) ∧
    processLine "s" ⟨[], "", none, none⟩ (some (.obj [("type", .str "assistant"),
        ("message", .obj [("content", .arr [.obj [("text", .num 5)]])])])) =
      ⟨[], "", none, none⟩ :=
  ⟨(c9_mapper_totality_boundary "s" "").1 JVal.null,
   (c9_mapper_totality_boundary "s" "").2.2 ⟨[], "", none, none⟩
     (.obj [("type", .str "assistant"),
        ("message", .obj [("content", .arr [.obj [("text", .num 5)]])])]) rfl⟩

/-- Appending the empty string on the right is the identity. -/
theorem strAppend_empty (s : String) : s ++ "" = s := by
  apply String.ext
  have h : ("" : String).data = [] := rfl
  simp [String.data_append, h]

/-- Appending the empty string on the left is the identity. -/
theorem strEmpty_append (s : String) : "" ++ s = s := rfl

/-- String concatenation is associative. -/
theorem strAppend_assoc (a b c : String) : a ++ b ++ c = a ++ (b ++ c) := by
  apply String.ext
  simp [String.data_append, List.append_assoc]

/-- Folding concatenation from an arbitrary accumulator factors the
accumulator out front. -/
theorem strFoldl_append (l : List String) (a : String) :
    l.foldl (· ++ ·) a = a ++ l.foldl (· ++ ·) "" := by
  induction l generalizing a with
  | nil => simp [strAppend_empty]
  | cons x xs ih =>
    simp only [List.foldl_cons]
    rw [ih (a ++ x), ih ("" ++ x), strEmpty_append, strAppend_assoc]

/-- String.join splits off its head. -/
theorem strJoin_cons (s : String) (l : List String) :
    String.join (s :: l) = s ++ String.join l := by
  simp only [String.join, List.foldl_cons]
  rw [strFoldl_append, strEmpty_append]

/-- A string prefix makes the JS startsWith test succeed. -/
theorem startsWith_of_prefixRel {l t : String} (h : prefixRel l t) :
    jsStartsWith t l = true := by
  simpa [jsStartsWith, List.isPrefixOf_iff_prefix] using h

/-- Reattaching the sliced tail of a prefix recovers the whole string. -/
theorem append_slice_of_prefixRel {l t : String} (h : prefixRel l t) :
    l ++ jsSlice t (jsLength l) = t := by
  apply String.ext
  simp only [String.data_append, jsSlice, jsLength]
  exact List.prefix_iff_eq_append.mp h

/-- Slicing past a proper prefix leaves a non-empty tail. -/
theorem slice_ne_empty_of_proper {l t : String} (h : prefixRel l t) (hne : t ≠ l) :
    (jsSlice t (jsLength l) == "") = false := by
  rw [beq_eq_false_iff_ne]
  intro hc
  have hdata : t.data.drop l.data.length = [] := by
    have := congrArg String.data hc
    simpa [jsSlice, jsLength] using this
  have hle : t.data.length ≤ l.data.length := List.drop_eq_nil_iff.mp hdata
  have hlen : l.data.length ≤ t.data.length := h.length_le
  have : l.data = t.data := h.eq_of_length (le_antisymm hlen hle)
  exact hne (String.ext this.symm)

/-- Evaluation of the mapper on an assistant event with cumulative text `t`:
a single delta chunk when the truthy text changed and the computed delta is
non-empty by JS truthiness, else nothing. -/
theorem mapAssistantEvent (sid l t : String) :
    mapCursorEventToAcp sid (mkAssistantEvent t) l =
      (if t != "" && !(t == l) then
        Except.ok (if (if jsStartsWith t l then jsSlice t (jsLength l) else t) == "" then []
          else [⟨sid, .agent_message_chunk
            (if jsStartsWith t l then jsSlice t (jsLength l) else t)⟩])
      else .ok []) := rfl

/-- One line handler step on an assistant event: the emitted deltas are
`chainDeltas` of the singleton run and the tracked text advances to the
event's text when truthy. -/
theorem processLine_assistant (sid : String) (st : TurnState) (t : String) :
    processLine sid st (some (mkAssistantEvent t)) =
      { st with
        notes := st.notes ++ (chainDeltas st.lastAssistantText [t]).map
          (fun d => ⟨sid, .agent_message_chunk d⟩),
        lastAssistantText := lastFold st.lastAssistantText [t] } := by
  by_cases h1 : (t != "" && !(t == st.lastAssistantText)) = true
  · by_cases h2 : ((if jsStartsWith t st.lastAssistantText
        then jsSlice t (jsLength st.lastAssistantText) else t) == "") = true
    · simp only [processLine, mapAssistantEvent, if_pos h1, if_pos h2, chainDeltas, lastFold]
      rfl
    · simp only [processLine, mapAssistantEvent, if_pos h1, if_neg h2, chainDeltas, lastFold]
      rfl
  · simp only [processLine, mapAssistantEvent, if_neg h1, chainDeltas, lastFold]
    rfl

/-- The fold of the line handler over a run of assistant events emits
exactly the `chainDeltas` chunks, in order, and tracks the last truthy
text. -/
theorem processLines_assistant (sid : String) (ts : List String) (st : TurnState) :
    processLines sid (ts.map fun t => some (mkAssistantEvent t)) st =
      { st with
        notes := st.notes ++ (chainDeltas st.lastAssistantText ts).map
          (fun d => ⟨sid, .agent_message_chunk d⟩),
        lastAssistantText := lastFold st.lastAssistantText ts } := by
  induction ts generalizing st with
  | nil => simp [processLines, chainDeltas, lastFold]
  | cons t ts ih =>
    simp only [List.map_cons, processLines, List.foldl_cons]
    rw [show List.foldl (processLine sid) (processLine sid st (some (mkAssistantEvent t)))
        (ts.map fun t => some (mkAssistantEvent t)) =
      processLines sid (ts.map fun t => some (mkAssistantEvent t))
        (processLine sid st (some (mkAssistantEvent t))) from rfl]
    rw [processLine_assistant, ih]
    simp [chainDeltas, lastFold, List.map_append, List.append_assoc]

/-- Along a prefix chain headed by the previously observed text, every
emitted delta is non-empty and the observed text concatenated with all
deltas reconstructs the final cumulative text. -/
theorem chainDeltas_sound : ∀ (ts : List String) (l : String),
    List.Chain' prefixRel (l :: ts) →
    (∀ d ∈ chainDeltas l ts, d ≠ "") ∧
      l ++ String.join (chainDeltas l ts) = ts.getLastD l := by
  intro ts
  induction ts with
  | nil =>
    intro l _
    refine ⟨by simp [chainDeltas], ?_⟩
    simp [chainDeltas, String.join, strAppend_empty]
  | cons t ts ih =>
    intro l h
    have h1 : prefixRel l t := (List.chain'_cons.mp h).1
    have h2 : List.Chain' prefixRel (t :: ts) := (List.chain'_cons.mp h).2
    by_cases ht : t = ""
    · subst ht
      have hl : l = "" := by
        have hnil : l.data <+: ([] : List Char) := h1
        exact String.ext (List.prefix_nil.mp hnil)
      subst hl
      have hrec := ih "" h2
      have hcd : chainDeltas "" ("" :: ts) = chainDeltas "" ts := by
        simp [chainDeltas]
      rw [hcd, List.getLastD_cons]
      exact hrec
    · by_cases htl : t = l
      · subst htl
        have hrec := ih t h2
        have hcd : chainDeltas t (t :: ts) = chainDeltas t ts := by
          simp [chainDeltas, ht]
        rw [hcd, List.getLastD_cons]
        exact hrec
      · have hsw : jsStartsWith t l = true := startsWith_of_prefixRel h1
        have hd : (jsSlice t (jsLength l) == "") = false := slice_ne_empty_of_proper h1 htl
        have hcd : chainDeltas l (t :: ts) = jsSlice t (jsLength l) :: chainDeltas t ts := by
          simp [chainDeltas, ht, htl, hsw, hd]
        have hrec := ih t h2
        refine ⟨?_, ?_⟩
        · intro d hdm
          rw [hcd] at hdm
          rcases List.mem_cons.mp hdm with rfl | hmem
          · exact beq_eq_false_iff_ne.mp hd
          · exact hrec.1 d hmem
        · rw [hcd, strJoin_cons, ← strAppend_assoc, append_slice_of_prefixRel h1,
            List.getLastD_cons]
          exact hrec.2

/-- C1: for a run of assistant events whose cumulative texts form a prefix
chain, the line handler emits exactly the `chainDeltas` chunks; every delta
is non-empty (one per strictly-growing step); and the concatenation of all
deltas equals the final cumulative text — no assistant text is ever emitted
twice. -/
theorem c1_assistant_prefix_chain_deltas (sid : String) (ts : List String)
    (hchain : List.Chain' prefixRel ts) :
    (processLines sid (ts.map fun t => some (mkAssistantEvent t))
        ⟨[], "", none, none⟩).notes =
      (chainDeltas "" ts).map (fun d => ⟨sid, .agent_message_chunk d⟩) ∧
    (∀ d ∈ chainDeltas "" ts, d ≠ "") ∧
    String.join (chainDeltas "" ts) = ts.getLastD "" := by
  have hch : List.Chain' prefixRel ("" :: ts) := by
    rw [List.chain'_cons']
    exact ⟨fun y _ => List.nil_prefix, hchain⟩
  have hsound := chainDeltas_sound ts "" hch
  refine ⟨?_, hsound.1, ?_⟩
  · rw [processLines_assistant]
    simp
  · have hj := hsound.2
    rwa [strEmpty_append] at hj

/-- C1 witness: the prefix-chain ["He", "Hello"] emits the two non-empty
deltas "He" and "llo", whose concatenation is the final text. -/
theorem c1_assistant_prefix_chain_deltas_witness :
    (processLines "s" (["He", "Hello"].map fun t => some (mkAssistantEvent t))
        ⟨[], "", none, none⟩).notes =
      [⟨"s", .agent_message_chunk "He"⟩, ⟨"s", .agent_message_chunk "llo"⟩] ∧
    String.join (chainDeltas "" ["He", "Hello"]) = "Hello" := by
  have h := c1_assistant_prefix_chain_deltas "s" ["He", "Hello"]
    (List.chain'_cons.mpr ⟨List.isPrefixOf_iff_prefix.mp (by decide), List.chain'_singleton _⟩)
  exact ⟨h.1.trans rfl, h.2.2.trans rfl⟩
